import Mathlib

/-!
Shallow embedding of `src/app.py` (AWS Cost Analysis API, FastAPI service).

Modelling conventions:
* Python floats are modelled as exact rationals (`ℚ`); the string amounts the
  provider returns (e.g. `group['Metrics']['BlendedCost']['Amount']`) are
  modelled as already-parsed rationals.
* Python `round(x, 2)` is modelled as round-half-to-even at 2 decimal places.
* `datetime.fromisoformat` is an external stdlib function; it is modelled
  restricted to calendar-date inputs `YYYY-MM-DD` (digit checks plus the range
  checks 1 ≤ month ≤ 12 and 1 ≤ day ≤ 31).  The `ValueError` message is
  modelled without Python repr quoting.
* The external billing provider (boto3 Cost Explorer client) is a parameter:
  either it returns a result or it raises (`ClientError` or any other
  exception, e.g. `NoCredentialsError` at call time).  Whether client
  construction raises `NoCredentialsError` is a separate parameter
  (`CtorOutcome`), mirroring the `try/except` in `get_cost_explorer_client`.
* `fastapi.HTTPException` is a subclass of `Exception`, so a blanket
  `except Exception as e` inside the handlers catches it; `str(e)` for an
  HTTPException is `f"\x7bstatus_code\x7d: \x7bdetail\x7d"` (Starlette).  This
  is modelled faithfully by `wrapExc`.
* Each handler also reports whether the provider API call
  (`get_cost_and_usage` / `get_cost_forecast`) was actually issued, as a
  `Bool` in the second component of its result.
* The content of the query sent to the provider (lines 60-72 of `app.py`:
  time period formatting, granularity, metrics, group-by) is not modelled:
  the provider's response is a parameter and no claim depends on the query
  content.
-/

/-- A generic left-to-right, non-overlapping string replacement, modelling
Python `str.replace` (used at `app.py` lines 54-55 for `'Z'`→`'+00:00'` and at
line 144 for the `rgb`→`rgba` colour munging).  Implemented with a fuel
argument so that it reduces by kernel evaluation; the fuel `s.length` is
always sufficient because a nonempty pattern consumes at least one character.
The empty-pattern case (which Python treats specially) never occurs in the
source and is modelled as the identity. -/
def stripPre : List Char → List Char → Option (List Char)
  | [], s => some s
  | _ :: _, [] => none
  | p :: ps, c :: cs => if c = p then stripPre ps cs else none

def replaceAux (pat rep : List Char) : Nat → List Char → List Char
  | _, [] => []
  | 0, s => s
  | fuel + 1, c :: cs =>
    match stripPre pat (c :: cs) with
    | some rest => rep ++ replaceAux pat rep fuel rest
    | none => c :: replaceAux pat rep fuel cs

def pyReplace (s pat rep : String) : String :=
  if pat.data = [] then s else ⟨replaceAux pat.data rep.data s.data.length s.data⟩

/-- Model of Python `round(x, 2)` on exact rationals: round `100*x` to the
nearest integer, ties to even, then divide by 100.  Implemented directly on
the numerator and denominator with integer arithmetic so that it evaluates
by kernel reduction; `x.num / x.den` with Euclidean division is `⌊x⌋`. -/
def roundHalfEven (x : ℚ) : ℤ :=
  let d : ℤ := (x.den : ℤ)
  let f : ℤ := x.num / d
  let r2 : ℤ := 2 * (x.num - f * d)
  if r2 < d then f
  else if d < r2 then f + 1
  else if f % 2 = 0 then f else f + 1

def round2 (q : ℚ) : ℚ := (roundHalfEven (q * 100) : ℚ) / 100

instance {ε α : Type} [DecidableEq ε] [DecidableEq α] : DecidableEq (Except ε α) :=
  fun x y =>
    match x, y with
    | .ok a, .ok b =>
      if h : a = b then .isTrue (congrArg Except.ok h)
      else .isFalse (fun hh => h (Except.ok.inj hh))
    | .error a, .error b =>
      if h : a = b then .isTrue (congrArg Except.error h)
      else .isFalse (fun hh => h (Except.error.inj hh))
    | .ok _, .error _ => .isFalse (fun hh => Except.noConfusion hh)
    | .error _, .ok _ => .isFalse (fun hh => Except.noConfusion hh)

/-- Digit value of a character, `none` if not a decimal digit. -/
def digitVal (c : Char) : Option Nat :=
  if '0' ≤ c ∧ c ≤ '9' then some (c.toNat - '0'.toNat) else none

/-- Model of `datetime.fromisoformat` (external stdlib, called at `app.py`
lines 54-55), restricted to calendar-date strings `YYYY-MM-DD`.  Returns the
`(year, month, day)` triple on success, `none` when parsing fails (Python
raises `ValueError`). -/
def parseIsoDate (s : String) : Option (Nat × Nat × Nat) :=
  match s.data with
  | [y1, y2, y3, y4, s1, m1, m2, s2, d1, d2] =>
    if s1 = '-' ∧ s2 = '-' then
      match digitVal y1, digitVal y2, digitVal y3, digitVal y4,
            digitVal m1, digitVal m2, digitVal d1, digitVal d2 with
      | some a, some b, some c, some d, some e, some f, some g, some h =>
        let y := 1000 * a + 100 * b + 10 * c + d
        let mo := 10 * e + f
        let da := 10 * g + h
        if 1 ≤ mo ∧ mo ≤ 12 ∧ 1 ≤ da ∧ da ≤ 31 then some (y, mo, da) else none
      | _, _, _, _, _, _, _, _ => none
    else none
  | _ => none

/-- Total order key for parsed dates; for valid calendar dates this encoding
is strictly monotone in `datetime` order. -/
def dateKey (p : Nat × Nat × Nat) : Nat := p.1 * 10000 + p.2.1 * 100 + p.2.2

/-! ## Data model (mirrors the dict shapes read by `app.py`) -/

/-- A metric value, modelling a `\x7b'Amount': str, 'Unit': str\x7d` dict with
the amount already parsed (`float(...['Amount'])`). -/
structure Metric where
  amount : ℚ
  unit : String
deriving DecidableEq

/-- One entry of `result['Groups']`: `Keys` list and the
`Metrics['BlendedCost']` value; `none` models a missing `BlendedCost` key
(indexing it would raise `KeyError`). -/
structure GroupEntry where
  keys : List String
  blendedCost : Option Metric
deriving DecidableEq

/-- One entry of `response['ResultsByTime']`: `TimePeriod` (Start/End),
`Groups`, and `Total['BlendedCost']` (`none` models the `Total` dict not
carrying `BlendedCost`, as happens for grouped results). -/
structure Bucket where
  periodStart : String
  periodEnd : String
  groups : List GroupEntry
  total : Option Metric
deriving DecidableEq

/-- Outcome of the `ce_client.get_cost_and_usage(**query)` call:
a result, a `botocore ClientError`, or any other exception (e.g.
`NoCredentialsError` raised at call time). -/
inductive CEOutcome where
  | ok (resultsByTime : List Bucket)
  | clientErr (msg : String)
  | otherErr (msg : String)
deriving DecidableEq

/-- Whether constructing the boto3 client (`boto3.client('ce', ...)`) raises
`NoCredentialsError`, as `get_cost_explorer_client` (app.py lines 28-35)
expects it may. -/
inductive CtorOutcome where
  | ok
  | noCredentials
deriving DecidableEq

/-- A Python exception escaping the handler body, before the
`except ClientError` / `except Exception` clauses classify it. -/
inductive PyExc where
  | http (status : Nat) (detail : String)
  | clientErr (msg : String)
  | other (msg : String)
deriving DecidableEq

/-- The JSON error payload FastAPI produces from a raised `HTTPException`. -/
structure ErrorResponse where
  status : Nat
  detail : String
deriving DecidableEq

/-- Lines 32-35 of app.py: the credentials-specific detail message. -/
def credsDetail : String :=
  "AWS credentials not configured. Please set AWS_ACCESS_KEY_ID and AWS_SECRET_ACCESS_KEY environment variables."

/-- The `except ClientError` / `except Exception` clauses that wrap every
handler body (`app.py` lines 154-157, 203-206, 494-497).  An `HTTPException`
raised inside the `try` block is itself an `Exception`, so it is caught by
the blanket clause and re-wrapped with `str(e) = "\x7bstatus\x7d: \x7bdetail\x7d"`. -/
def wrapExc {α : Type} : Except PyExc α → Except ErrorResponse α
  | .ok a => .ok a
  | .error (.clientErr m) => .error ⟨500, "AWS API Error: " ++ m⟩
  | .error (.http s d) => .error ⟨500, "Internal error: " ++ Nat.repr s ++ ": " ++ d⟩
  | .error (.other m) => .error ⟨500, "Internal error: " ++ m⟩

/-- Status of a handler result, if it is an error. -/
def respStatus {α : Type} : Except ErrorResponse α → Option Nat
  | .ok _ => none
  | .error e => some e.status

/-- Whether a handler result is a client error (4xx). -/
def isClientError {α : Type} (r : Except ErrorResponse α) : Prop :=
  match respStatus r with
  | some s => 400 ≤ s ∧ s < 500
  | none => False

instance {α : Type} (r : Except ErrorResponse α) : Decidable (isClientError r) := by
  unfold isClientError
  cases respStatus r with
  | none => exact inferInstance
  | some s => exact inferInstance

/-! ## `/costs/analyze` (app.py lines 45-157) -/

/-- Request body (`CostRequest` pydantic model, app.py lines 15-19). -/
structure CostRequest where
  start_date : String
  end_date : String
  granularity : String
  group_by : Option String
deriving DecidableEq

/-- One dict appended to `data` (app.py lines 95-101 and 108-113); the
`group` key is only present for grouped buckets. -/
structure DataRecord where
  period_start : String
  period_end : String
  group : Option String
  cost : ℚ
  currency : String
deriving DecidableEq

/-- One entry of `chart_data['datasets']`. -/
structure Dataset where
  label : String
  data : List ℚ
  borderColor : String
  backgroundColor : String
deriving DecidableEq

/-- Chart payload `chart_data` (app.py line 81). -/
structure ChartData where
  labels : List String
  datasets : List Dataset
deriving DecidableEq

/-- Response body `CostResponse` (app.py lines 21-25). -/
structure CostResponse where
  total_cost : ℚ
  currency : String
  data : List DataRecord
  chart_data : ChartData
deriving DecidableEq

/-- The inner loop over `result['Groups']` (app.py lines 89-101), threading
the running total, the last-written currency, and the `data` list. -/
def processGroups (ps pe : String) :
    List GroupEntry → ℚ → String → List DataRecord →
    Except PyExc (ℚ × String × List DataRecord)
  | [], t, c, d => .ok (t, c, d)
  | g :: gs, t, _c, d =>
    match g.blendedCost with
    | none => .error (.other "KeyError: BlendedCost")
    | some m =>
      let key := g.keys.head?.getD "Unknown"
      processGroups ps pe gs (t + m.amount) m.unit
        (d ++ [⟨ps, pe, some key, m.amount, m.unit⟩])

/-- The loop over `response['ResultsByTime']` (app.py lines 83-115).
`if result['Groups']:` is Python list truthiness, i.e. nonemptiness.  The
accumulator carries (total, currency, data, chart labels); the suppressed
`c` argument is the currency last written. -/
def processBuckets :
    List Bucket → ℚ → String → List DataRecord → List String →
    Except PyExc (ℚ × String × List DataRecord × List String)
  | [], t, c, d, ls => .ok (t, c, d, ls)
  | b :: bs, t, c, d, ls =>
    match b.groups with
    | g :: gs =>
      match processGroups b.periodStart b.periodEnd (g :: gs) t c d with
      | .error e => .error e
      | .ok (t2, c2, d2) => processBuckets bs t2 c2 d2 ls
    | [] =>
      match b.total with
      | none => .error (.other "KeyError: BlendedCost")
      | some m =>
        processBuckets bs (t + m.amount) m.unit
          (d ++ [⟨b.periodStart, b.periodEnd, none, m.amount, m.unit⟩])
          (ls ++ [b.periodStart])

/-- The fixed colour palette (app.py lines 136-137). -/
def colors : List String :=
  ["rgb(255, 99, 132)", "rgb(54, 162, 235)", "rgb(255, 205, 86)",
   "rgb(75, 192, 192)", "rgb(153, 102, 255)", "rgb(255, 159, 64)"]

/-- The re-bucketing of `data` by group label (app.py lines 128-133):
a Python dict in insertion order, appending each cost to its group's list. -/
def addGroup (l : List (String × List ℚ)) (k : String) (c : ℚ) :
    List (String × List ℚ) :=
  match l with
  | [] => [(k, [c])]
  | (k2, v) :: t => if k2 = k then (k2, v ++ [c]) :: t else (k2, v) :: addGroup t k c

def buildGroups (data : List DataRecord) : List (String × List ℚ) :=
  data.foldl (fun acc r => addGroup acc (r.group.getD "Unknown") r.cost) []

/-- Python truthiness of the optional `group_by` string as tested by
`if not request.group_by:` at app.py line 118: `None` and the empty string
are falsy, every other string is truthy. -/
def pyTruthy : Option String → Bool
  | none => false
  | some s => if s = "" then false else true

/-- Chart-data preparation (app.py lines 117-145): the single hard-coded
`Cost` series when `request.group_by` is falsy (`None` or the empty string),
the per-label series otherwise. -/
def buildChart (group_by : Option String) (data : List DataRecord)
    (labels : List String) : ChartData :=
  { labels := labels
    datasets :=
      if pyTruthy group_by then
        (buildGroups data).enum.map (fun p =>
          let color := colors.getD (p.1 % colors.length) ""
          ⟨p.2.1, p.2.2, color,
           pyReplace (pyReplace color "rgb" "rgba") ")" ", 0.2)"⟩)
      else
        [⟨"Cost", data.map (fun r => r.cost),
          "rgb(75, 192, 192)", "rgba(75, 192, 192, 0.2)"⟩] }

/-- The `try` body of `analyze_costs` (app.py lines 50-152).  The `Bool`
records whether `get_cost_and_usage` was invoked. -/
def tryAnalyze (ctor : CtorOutcome) (prov : CEOutcome) (req : CostRequest) :
    Except PyExc CostResponse × Bool :=
  match ctor with
  | .noCredentials => (.error (.http 500 credsDetail), false)
  | .ok =>
    match parseIsoDate (pyReplace req.start_date "Z" "+00:00") with
    | none =>
      (.error (.other ("Invalid isoformat string: " ++
        pyReplace req.start_date "Z" "+00:00")), false)
    | some ds =>
      match parseIsoDate (pyReplace req.end_date "Z" "+00:00") with
      | none =>
        (.error (.other ("Invalid isoformat string: " ++
          pyReplace req.end_date "Z" "+00:00")), false)
      | some de =>
        if dateKey de ≤ dateKey ds then
          (.error (.http 400 "Start date must be before end date"), false)
        else
          match prov with
          | .clientErr m => (.error (.clientErr m), true)
          | .otherErr m => (.error (.other m), true)
          | .ok buckets =>
            match processBuckets buckets 0 "USD" [] [] with
            | .error e => (.error e, true)
            | .ok (t, c, d, ls) =>
              (.ok { total_cost := round2 t, currency := c, data := d,
                     chart_data := buildChart req.group_by d ls }, true)

/-- The full `/costs/analyze` handler: `try` body plus the two `except`
clauses (app.py lines 45-157). -/
def analyzeCosts (ctor : CtorOutcome) (prov : CEOutcome) (req : CostRequest) :
    Except ErrorResponse CostResponse × Bool :=
  (wrapExc (tryAnalyze ctor prov req).1, (tryAnalyze ctor prov req).2)

/-! ## `/costs/services` (app.py lines 159-206) -/

/-- One entry of the `top_services` list (app.py line 198). -/
structure ServiceEntry where
  service : String
  cost : ℚ
deriving DecidableEq

/-- Response of `/costs/services` (app.py lines 197-201). -/
structure ServicesResponse where
  top_services : List ServiceEntry
  total_services : Nat
  period_days : ℤ
deriving DecidableEq

/-- Dict update `services[service] += cost` / `services[service] = cost`
(app.py lines 189-192): a Python dict in insertion (first-seen) order. -/
def addService (l : List (String × ℚ)) (s : String) (c : ℚ) : List (String × ℚ) :=
  match l with
  | [] => [(s, c)]
  | (k, v) :: t => if k = s then (k, v + c) :: t else (k, v) :: addService t s c

/-- The accumulation loops of `get_top_services` (app.py lines 183-192):
for each time bucket, for each group, add the group's blended cost under the
service key (`Keys[0]`, defaulting to `'Unknown'` for an empty `Keys` list). -/
def accGroups (l : List (String × ℚ)) :
    List GroupEntry → Except PyExc (List (String × ℚ))
  | [] => .ok l
  | g :: gs =>
    match g.blendedCost with
    | none => .error (.other "KeyError: BlendedCost")
    | some m => accGroups (addService l (g.keys.head?.getD "Unknown") m.amount) gs

def accServices (l : List (String × ℚ)) :
    List Bucket → Except PyExc (List (String × ℚ))
  | [] => .ok l
  | b :: bs =>
    match accGroups l b.groups with
    | .error e => .error e
    | .ok l2 => accServices l2 bs

/-- The descending-by-cost ordering used at app.py line 195; Python
`sorted(..., key=lambda x: x[1], reverse=True)` is a stable sort, as is
`List.insertionSort` with this relation. -/
def costGE (a b : String × ℚ) : Prop := b.2 ≤ a.2

instance : DecidableRel costGE := fun a b => inferInstanceAs (Decidable (b.2 ≤ a.2))

instance : IsTotal (String × ℚ) costGE := ⟨fun a b => le_total b.2 a.2⟩

instance : IsTrans (String × ℚ) costGE := ⟨fun _ _ _ h1 h2 => le_trans h2 h1⟩

def servicesSorted (l : List (String × ℚ)) : List (String × ℚ) :=
  l.insertionSort costGE

/-- Python list slicing `l[:k]` for an arbitrary integer `k`: for `k ≥ 0` the
first `k` elements, for `k < 0` all but the last `|k|` elements. -/
def pySlice {α : Type} (l : List α) (k : ℤ) : List α :=
  if 0 ≤ k then l.take k.toNat else l.take ((l.length : ℤ) + k).toNat

/-- The `try` body of `get_top_services` (app.py lines 167-201).  The time
window derived from `datetime.now()` only shapes the provider query, which is
not modelled; `days` is echoed back as `period_days`.  The `Bool` records
whether `get_cost_and_usage` was invoked. -/
def tryTopServices (ctor : CtorOutcome) (prov : CEOutcome) (days limit : ℤ) :
    Except PyExc ServicesResponse × Bool :=
  match ctor with
  | .noCredentials => (.error (.http 500 credsDetail), false)
  | .ok =>
    match prov with
    | .clientErr m => (.error (.clientErr m), true)
    | .otherErr m => (.error (.other m), true)
    | .ok buckets =>
      match accServices [] buckets with
      | .error e => (.error e, true)
      | .ok svc =>
        let top := pySlice (servicesSorted svc) limit
        (.ok { top_services := top.map (fun p => ⟨p.1, round2 p.2⟩),
               total_services := svc.length,
               period_days := days }, true)

/-- The full `/costs/services` handler (app.py lines 159-206). -/
def getTopServices (ctor : CtorOutcome) (prov : CEOutcome) (days limit : ℤ) :
    Except ErrorResponse ServicesResponse × Bool :=
  (wrapExc (tryTopServices ctor prov days limit).1,
   (tryTopServices ctor prov days limit).2)

/-! ## `/costs/forecast` (app.py lines 458-497) -/

/-- One entry of `response['ForecastResultsByTime']` (read at app.py lines
479-485): period start and the three prediction values, modelled as already
parsed from their string form. -/
structure ForecastBucket where
  periodStart : String
  meanValue : ℚ
  lowerBound : ℚ
  upperBound : ℚ
deriving DecidableEq

/-- Provider result of `get_cost_forecast`: the per-period entries plus the
`Total` metric, which carries the provider's currency unit and which the
handler never reads. -/
structure ForecastResult where
  forecastResultsByTime : List ForecastBucket
  total : Metric
deriving DecidableEq

/-- Outcome of the `ce_client.get_cost_forecast(...)` call. -/
inductive FCOutcome where
  | ok (r : ForecastResult)
  | clientErr (msg : String)
  | otherErr (msg : String)
deriving DecidableEq

/-- One entry of the emitted `forecast_data` list (app.py lines 480-485). -/
structure ForecastPoint where
  date : String
  mean_value : ℚ
  prediction_interval_lower : ℚ
  prediction_interval_upper : ℚ
deriving DecidableEq

/-- Response of `/costs/forecast` (app.py lines 487-492). -/
structure ForecastResponse where
  forecast_data : List ForecastPoint
  total_forecast : ℚ
  currency : String
  forecast_days : ℤ
deriving DecidableEq

/-- The `try` body of `get_cost_forecast` (app.py lines 463-492); the
forecast window derived from `datetime.now()` only shapes the provider
query, which is not modelled.  The `Bool` records whether
`get_cost_forecast` was invoked on the client. -/
def tryForecast (ctor : CtorOutcome) (prov : FCOutcome) (days : ℤ) :
    Except PyExc ForecastResponse × Bool :=
  match ctor with
  | .noCredentials => (.error (.http 500 credsDetail), false)
  | .ok =>
    match prov with
    | .clientErr m => (.error (.clientErr m), true)
    | .otherErr m => (.error (.other m), true)
    | .ok r =>
      let fd := r.forecastResultsByTime.map (fun b =>
        (⟨b.periodStart, b.meanValue, b.lowerBound, b.upperBound⟩ : ForecastPoint))
      (.ok { forecast_data := fd,
             total_forecast := (fd.map (fun p => p.mean_value)).sum,
             currency := "USD",
             forecast_days := days }, true)

/-- The full `/costs/forecast` handler (app.py lines 458-497). -/
def getCostForecast (ctor : CtorOutcome) (prov : FCOutcome) (days : ℤ) :
    Except ErrorResponse ForecastResponse × Bool :=
  (wrapExc (tryForecast ctor prov days).1, (tryForecast ctor prov days).2)

/-! ## Concrete requests, provider results and responses used as test inputs -/

/-- The key list of the insertion-ordered dict built by `addGroup`. -/
def groupKeys (l : List (String × List ℚ)) : List String := l.map Prod.fst

def reqNoGroup : CostRequest := ⟨"2024-01-01", "2024-01-03", "DAILY", none⟩

def reqGrouped : CostRequest := ⟨"2024-01-01", "2024-01-03", "DAILY", some "SERVICE"⟩

def reqInverted : CostRequest := ⟨"2024-01-02", "2024-01-01", "DAILY", none⟩

def reqBadStart : CostRequest := ⟨"not-a-date", "2024-01-03", "DAILY", none⟩

/-- Two ungrouped day-buckets with costs 10.00 and 20.00. -/
def provTwoBuckets : CEOutcome :=
  .ok [⟨"2024-01-01", "2024-01-02", [], some ⟨10, "USD"⟩⟩,
       ⟨"2024-01-02", "2024-01-03", [], some ⟨20, "USD"⟩⟩]

def respTwoBuckets : CostResponse :=
  { total_cost := 30, currency := "USD",
    data := [⟨"2024-01-01", "2024-01-02", none, 10, "USD"⟩,
             ⟨"2024-01-02", "2024-01-03", none, 20, "USD"⟩],
    chart_data := ⟨["2024-01-01", "2024-01-02"],
      [⟨"Cost", [10, 20], "rgb(75, 192, 192)", "rgba(75, 192, 192, 0.2)"⟩]⟩ }

/-- Two ungrouped buckets whose cost records carry different currency units. -/
def provMixedCurrency : CEOutcome :=
  .ok [⟨"2024-01-01", "2024-01-02", [], some ⟨10, "USD"⟩⟩,
       ⟨"2024-01-02", "2024-01-03", [], some ⟨20, "EUR"⟩⟩]

def respMixedCurrency : CostResponse :=
  { total_cost := 30, currency := "EUR",
    data := [⟨"2024-01-01", "2024-01-02", none, 10, "USD"⟩,
             ⟨"2024-01-02", "2024-01-03", none, 20, "EUR"⟩],
    chart_data := ⟨["2024-01-01", "2024-01-02"],
      [⟨"Cost", [10, 20], "rgb(75, 192, 192)", "rgba(75, 192, 192, 0.2)"⟩]⟩ }

/-- A grouped bucket followed by an ungrouped bucket: the second emitted
record carries no group label at all. -/
def provOneGroupedOneUngrouped : CEOutcome :=
  .ok [⟨"2024-01-01", "2024-01-02", [⟨["EC2"], some ⟨5, "USD"⟩⟩], none⟩,
       ⟨"2024-01-02", "2024-01-03", [], some ⟨7, "USD"⟩⟩]

/-- One bucket with two groups. -/
def provTwoGroups : CEOutcome :=
  .ok [⟨"2024-01-01", "2024-01-02",
        [⟨["EC2"], some ⟨5, "USD"⟩⟩, ⟨["S3"], some ⟨3, "USD"⟩⟩], none⟩]

def respTwoGroups : CostResponse :=
  { total_cost := 8, currency := "USD",
    data := [⟨"2024-01-01", "2024-01-02", some "EC2", 5, "USD"⟩,
             ⟨"2024-01-01", "2024-01-02", some "S3", 3, "USD"⟩],
    chart_data := ⟨[],
      [⟨"EC2", [5], "rgb(255, 99, 132)", "rgba(255, 99, 132, 0.2)"⟩,
       ⟨"S3", [3], "rgb(54, 162, 235)", "rgba(54, 162, 235, 0.2)"⟩]⟩ }

def respServices : ServicesResponse :=
  { top_services := [⟨"EC2", 5⟩, ⟨"S3", 3⟩], total_services := 2, period_days := 30 }

/-- One grouped bucket with a single service. -/
def provOneService : CEOutcome :=
  .ok [⟨"2024-01-01", "2024-02-01", [⟨["EC2"], some ⟨5, "USD"⟩⟩], none⟩]

def provForecast : FCOutcome :=
  .ok ⟨[⟨"2025-01-01", 3/2, 1, 2⟩, ⟨"2025-01-02", 5/2, 2, 3⟩], ⟨4, "EUR"⟩⟩

def respForecast : ForecastResponse :=
  { forecast_data := [⟨"2025-01-01", 3/2, 1, 2⟩, ⟨"2025-01-02", 5/2, 2, 3⟩],
    total_forecast := 4, currency := "USD", forecast_days := 30 }

/-! ## Invariants of the analyze accumulation loop -/

lemma getLastD_cons {α β : Type} (f : α → β) :
    ∀ (x : α) (l : List α) (c : β),
    (((x :: l).getLast?).map f).getD c = ((l.getLast?).map f).getD (f x)
  | _, [], _ => rfl
  | x, y :: t, c => by
    rw [List.getLast?_cons_cons, getLastD_cons f y t c, getLastD_cons f y t (f x)]

lemma getLastD_append {α β : Type} (f : α → β) (l1 l2 : List α) (c : β) :
    (((l1 ++ l2).getLast?).map f).getD c
      = ((l2.getLast?).map f).getD (((l1.getLast?).map f).getD c) := by
  induction l1 generalizing c with
  | nil =>
    cases h2 : l2.getLast? with
    | none => simp [h2]
    | some y => simp [h2]
  | cons x t ih =>
    rw [List.cons_append, getLastD_cons, ih, getLastD_cons]

/-- Unfolding of a successful run of `processGroups`: the records appended,
the total added, and the final currency (last-write-wins). -/
lemma processGroups_ok (ps pe : String) (gs : List GroupEntry) :
    ∀ (t : ℚ) (c : String) (d : List DataRecord) (t2 : ℚ) (c2 : String)
      (d2 : List DataRecord),
      processGroups ps pe gs t c d = .ok (t2, c2, d2) →
      ∃ ext, d2 = d ++ ext ∧ t2 = t + (ext.map DataRecord.cost).sum ∧
        c2 = ((ext.getLast?).map DataRecord.currency).getD c := by
  induction gs with
  | nil =>
    intro t c d t2 c2 d2 h
    simp only [processGroups, Except.ok.injEq, Prod.mk.injEq] at h
    obtain ⟨h1, h2, h3⟩ := h
    exact ⟨[], by simp [h1, h2, h3]⟩
  | cons g gs ih =>
    intro t c d t2 c2 d2 h
    cases hb : g.blendedCost with
    | none => simp [processGroups, hb] at h
    | some m =>
      simp only [processGroups, hb] at h
      obtain ⟨ext, hd, ht, hc⟩ := ih _ _ _ _ _ _ h
      refine ⟨⟨ps, pe, some (g.keys.head?.getD "Unknown"), m.amount, m.unit⟩ :: ext,
        ?_, ?_, ?_⟩
      · simp [hd]
      · simp only [ht, List.map_cons, List.sum_cons]
        ring
      · rw [hc, getLastD_cons]

/-- Unfolding of a successful run of `processBuckets`. -/
lemma processBuckets_ok (bs : List Bucket) :
    ∀ (t : ℚ) (c : String) (d : List DataRecord) (ls : List String)
      (t2 : ℚ) (c2 : String) (d2 : List DataRecord) (ls2 : List String),
      processBuckets bs t c d ls = .ok (t2, c2, d2, ls2) →
      ∃ ext, d2 = d ++ ext ∧ t2 = t + (ext.map DataRecord.cost).sum ∧
        c2 = ((ext.getLast?).map DataRecord.currency).getD c := by
  induction bs with
  | nil =>
    intro t c d ls t2 c2 d2 ls2 h
    simp only [processBuckets, Except.ok.injEq, Prod.mk.injEq] at h
    obtain ⟨h1, h2, h3, _⟩ := h
    exact ⟨[], by simp [h1, h2, h3]⟩
  | cons b bs ih =>
    intro t c d ls t2 c2 d2 ls2 h
    cases hg : b.groups with
    | cons g gs =>
      simp only [processBuckets, hg] at h
      cases hpg : processGroups b.periodStart b.periodEnd (g :: gs) t c d with
      | error e => rw [hpg] at h; exact absurd h (by simp)
      | ok trip =>
        obtain ⟨t1, c1, d1⟩ := trip
        rw [hpg] at h
        obtain ⟨ext1, hd1, ht1, hc1⟩ := processGroups_ok _ _ _ _ _ _ _ _ _ hpg
        obtain ⟨ext2, hd2, ht2, hc2⟩ := ih _ _ _ _ _ _ _ _ h
        refine ⟨ext1 ++ ext2, ?_, ?_, ?_⟩
        · simp [hd2, hd1]
        · simp only [ht2, ht1, List.map_append, List.sum_append]
          ring
        · rw [hc2, hc1, getLastD_append]
    | nil =>
      cases htot : b.total with
      | none => simp [processBuckets, hg, htot] at h
      | some m =>
        simp only [processBuckets, hg, htot] at h
        obtain ⟨ext2, hd2, ht2, hc2⟩ := ih _ _ _ _ _ _ _ _ h
        refine ⟨⟨b.periodStart, b.periodEnd, none, m.amount, m.unit⟩ :: ext2,
          ?_, ?_, ?_⟩
        · simp [hd2]
        · simp only [ht2, List.map_cons, List.sum_cons]
          ring
        · rw [hc2, getLastD_cons]

/-- Successful results of `wrapExc` come only from successful bodies. -/
lemma wrapExc_ok {α : Type} {x : Except PyExc α} {a : α} :
    wrapExc x = .ok a ↔ x = .ok a := by
  cases x with
  | ok b => simp [wrapExc]
  | error e => cases e <;> simp [wrapExc]

/-- Inversion for a successful `/costs/analyze` run: the provider returned a
result, the accumulation loop succeeded, and the response is assembled from
its outputs. -/
lemma analyzeCosts_ok {ctor : CtorOutcome} {prov : CEOutcome}
    {req : CostRequest} {resp : CostResponse}
    (h : (analyzeCosts ctor prov req).1 = .ok resp) :
    ∃ bs t c d ls, prov = .ok bs ∧
      processBuckets bs 0 "USD" [] [] = .ok (t, c, d, ls) ∧
      resp = ⟨round2 t, c, d, buildChart req.group_by d ls⟩ := by
  have h1 : (tryAnalyze ctor prov req).1 = .ok resp := by
    simp only [analyzeCosts] at h
    exact wrapExc_ok.mp h
  cases ctor with
  | noCredentials => simp [tryAnalyze] at h1
  | ok =>
    cases hs : parseIsoDate (pyReplace req.start_date "Z" "+00:00") with
    | none => simp [tryAnalyze, hs] at h1
    | some ds =>
      cases he : parseIsoDate (pyReplace req.end_date "Z" "+00:00") with
      | none => simp [tryAnalyze, hs, he] at h1
      | some de =>
        simp only [tryAnalyze, hs, he] at h1
        by_cases hcmp : dateKey de ≤ dateKey ds
        · rw [if_pos hcmp] at h1
          simp at h1
        · rw [if_neg hcmp] at h1
          cases prov with
          | clientErr m => simp at h1
          | otherErr m => simp at h1
          | ok bs =>
            cases hp : processBuckets bs 0 "USD" [] [] with
            | error e => simp [hp] at h1
            | ok quad =>
              obtain ⟨t, c, d, ls⟩ := quad
              simp only [hp, Except.ok.injEq] at h1
              exact ⟨bs, t, c, d, ls, rfl, hp, h1.symm⟩

/-! ## Claim theorems -/

section ConcreteEvaluation

attribute [local semireducible] Rat.add Rat.mul Rat.inv

/-- C1: for every /costs/analyze request with a valid date range (i.e. every
run that produces a successful response), the `total_cost` field of the
response equals the sum of the `cost` values of all emitted data records,
rounded to 2 decimal places. -/
theorem C1_total_cost_eq_rounded_sum (ctor : CtorOutcome) (prov : CEOutcome)
    (req : CostRequest) (resp : CostResponse)
    (h : (analyzeCosts ctor prov req).1 = .ok resp) :
    resp.total_cost = round2 ((resp.data.map DataRecord.cost).sum) := by
  obtain ⟨bs, t, c, d, ls, _, hp, hr⟩ := analyzeCosts_ok h
  obtain ⟨ext, hd, ht, _⟩ := processBuckets_ok bs 0 "USD" [] [] t c d ls hp
  subst hr
  simp only [List.nil_append] at hd
  subst hd
  simp only [zero_add] at ht
  simp [ht]

/-- Witness for C1 at a concrete input: two ungrouped buckets with costs
10 and 20. -/
theorem C1_witness :
    respTwoBuckets.total_cost = round2 ((respTwoBuckets.data.map DataRecord.cost).sum) :=
  C1_total_cost_eq_rounded_sum .ok provTwoBuckets reqNoGroup respTwoBuckets (by decide)

/-- C2: with an inverted date range the handler does not call the provider
(second component `false`), but contrary to the claim it does not return a
4xx client error: the explicit `HTTPException(400, ...)` raised at app.py
line 58 is caught by the blanket `except Exception` clause at line 156 and
re-wrapped into a 500 internal error. -/
theorem C2_inverted_range_gives_500_and_no_call :
    analyzeCosts .ok (.ok []) reqInverted =
      (.error ⟨500, "Internal error: 400: Start date must be before end date"⟩, false) ∧
    ¬ isClientError (analyzeCosts .ok (.ok []) reqInverted).1 := by decide

/-- C5: with absent credentials (client construction raising
`NoCredentialsError`, the situation lines 28-35 of app.py anticipate), every
cost endpoint returns the generic internal-error payload wrapping the
credentials `HTTPException` — not the distinct credentials-specific detail
message the claim requires: the blanket `except Exception` clauses re-wrap
it. -/
theorem C5_missing_creds_wrapped_generic :
    (analyzeCosts .noCredentials (.ok []) reqNoGroup).1 =
        .error ⟨500, "Internal error: 500: " ++ credsDetail⟩ ∧
    (getTopServices .noCredentials (.ok []) 30 10).1 =
        .error ⟨500, "Internal error: 500: " ++ credsDetail⟩ ∧
    (getCostForecast .noCredentials (.ok ⟨[], ⟨0, "USD"⟩⟩) 30).1 =
        .error ⟨500, "Internal error: 500: " ++ credsDetail⟩ ∧
    "Internal error: 500: " ++ credsDetail ≠ credsDetail := by decide

/-- C6: for every successful /costs/forecast response, `total_forecast`
equals the sum of the `mean_value` fields of the `forecast_data` entries. -/
theorem C6_total_forecast_eq_sum_of_means (ctor : CtorOutcome)
    (prov : FCOutcome) (days : ℤ) (resp : ForecastResponse)
    (h : (getCostForecast ctor prov days).1 = .ok resp) :
    resp.total_forecast = (resp.forecast_data.map ForecastPoint.mean_value).sum := by
  have h1 : (tryForecast ctor prov days).1 = .ok resp := by
    simp only [getCostForecast] at h
    exact wrapExc_ok.mp h
  cases ctor with
  | noCredentials => simp [tryForecast] at h1
  | ok =>
    cases prov with
    | clientErr m => simp [tryForecast] at h1
    | otherErr m => simp [tryForecast] at h1
    | ok r =>
      simp only [tryForecast, Except.ok.injEq] at h1
      subst h1
      rfl

/-- Witness for C6 at a concrete input: two forecast periods with means
1.5 and 2.5 and total 4. -/
theorem C6_witness :
    respForecast.total_forecast =
      (respForecast.forecast_data.map ForecastPoint.mean_value).sum :=
  C6_total_forecast_eq_sum_of_means .ok provForecast 30 respForecast (by decide)

/-- C7: for every successful /costs/analyze response with at least one
emitted record, the `currency` field equals the currency unit of the last
record processed (last-write-wins, no cross-record validation). -/
theorem C7_currency_is_last_record (ctor : CtorOutcome) (prov : CEOutcome)
    (req : CostRequest) (resp : CostResponse) (r : DataRecord)
    (h : (analyzeCosts ctor prov req).1 = .ok resp)
    (hl : resp.data.getLast? = some r) :
    resp.currency = r.currency := by
  obtain ⟨bs, t, c, d, ls, _, hp, hr⟩ := analyzeCosts_ok h
  obtain ⟨ext, hd, _, hc⟩ := processBuckets_ok bs 0 "USD" [] [] t c d ls hp
  subst hr
  simp only [List.nil_append] at hd
  subst hd
  simp only [hl] at hc ⊢
  simp [hc]

/-- Witness for C7 at a concrete input whose records carry different
currencies (USD then EUR): the response currency is the last one, EUR. -/
theorem C7_witness :
    respMixedCurrency.currency =
      (⟨"2024-01-02", "2024-01-03", none, 20, "EUR"⟩ : DataRecord).currency :=
  C7_currency_is_last_record .ok provMixedCurrency reqNoGroup respMixedCurrency
    ⟨"2024-01-02", "2024-01-03", none, 20, "EUR"⟩ (by decide) (by decide)

/-- C8 counterexample: a start date that fails to parse is rejected, and no
provider call is made, but the error is not a 4xx client error: the
`ValueError` from date parsing is caught by the blanket `except Exception`
clause and surfaces as a 500 internal error. -/
theorem C8_counterexample_unparseable_date_gives_500 :
    analyzeCosts .ok (.ok []) reqBadStart =
      (.error ⟨500, "Internal error: Invalid isoformat string: not-a-date"⟩, false) ∧
    ¬ isClientError (analyzeCosts .ok (.ok []) reqBadStart).1 := by decide

/-- C8 (amended): when the start or end date string fails to parse, the
request is rejected with a 500 internal error whose detail embeds the parse
failure, and no provider call is made. -/
theorem C8_amended_unparseable_date_rejected (prov : CEOutcome) (req : CostRequest)
    (h : parseIsoDate (pyReplace req.start_date "Z" "+00:00") = none ∨
         parseIsoDate (pyReplace req.end_date "Z" "+00:00") = none) :
    analyzeCosts .ok prov req =
      (.error ⟨500, "Internal error: " ++ ("Invalid isoformat string: " ++
        pyReplace req.start_date "Z" "+00:00")⟩, false) ∨
    analyzeCosts .ok prov req =
      (.error ⟨500, "Internal error: " ++ ("Invalid isoformat string: " ++
        pyReplace req.end_date "Z" "+00:00")⟩, false) := by
  cases hs : parseIsoDate (pyReplace req.start_date "Z" "+00:00") with
  | none =>
    left
    simp [analyzeCosts, tryAnalyze, hs, wrapExc]
  | some ds =>
    right
    have he : parseIsoDate (pyReplace req.end_date "Z" "+00:00") = none := by
      rcases h with h | h
      · rw [hs] at h; exact absurd h (by simp)
      · exact h
    simp [analyzeCosts, tryAnalyze, hs, he, wrapExc]

/-- Witness for the amended C8 at a concrete input: an unparseable start
date. -/
theorem C8_amended_witness :
    analyzeCosts .ok (.ok []) reqBadStart =
      (.error ⟨500, "Internal error: " ++ ("Invalid isoformat string: " ++
        pyReplace reqBadStart.start_date "Z" "+00:00")⟩, false) ∨
    analyzeCosts .ok (.ok []) reqBadStart =
      (.error ⟨500, "Internal error: " ++ ("Invalid isoformat string: " ++
        pyReplace reqBadStart.end_date "Z" "+00:00")⟩, false) :=
  C8_amended_unparseable_date_rejected (.ok []) reqBadStart (.inl (by decide))

/-- C9: the spec's worked example: query 2024-01-01 to 2024-01-03, DAILY, no
grouping, provider returns two day-buckets with costs 10.00 and 20.00; the
response has total_cost 30.00 and exactly one chart series with data
[10.00, 20.00]. -/
theorem C9_worked_example :
    ((analyzeCosts .ok provTwoBuckets reqNoGroup).1.toOption.map
      (fun r => (r.total_cost, r.chart_data.datasets.map Dataset.data)))
    = some (30, [[10, 20]]) := by decide

/-- C10: every successful /costs/forecast response carries the literal
currency string "USD", whatever currency unit the provider's forecast
result carries. -/
theorem C10_forecast_currency_is_USD (ctor : CtorOutcome)
    (prov : FCOutcome) (days : ℤ) (resp : ForecastResponse)
    (h : (getCostForecast ctor prov days).1 = .ok resp) :
    resp.currency = "USD" := by
  have h1 : (tryForecast ctor prov days).1 = .ok resp := by
    simp only [getCostForecast] at h
    exact wrapExc_ok.mp h
  cases ctor with
  | noCredentials => simp [tryForecast] at h1
  | ok =>
    cases prov with
    | clientErr m => simp [tryForecast] at h1
    | otherErr m => simp [tryForecast] at h1
    | ok r =>
      simp only [tryForecast, Except.ok.injEq] at h1
      subst h1
      rfl

/-- Witness for C10 at a concrete input whose provider-side forecast total
carries the unit EUR: the response currency is still USD. -/
theorem C10_witness : respForecast.currency = "USD" :=
  C10_forecast_currency_is_USD .ok provForecast 30 respForecast (by decide)

end ConcreteEvaluation

/-! ## Counting the chart series built for grouped requests -/

lemma addGroup_keys_mem (k : String) (c : ℚ) :
    ∀ (l : List (String × List ℚ)) (x : String),
    x ∈ groupKeys (addGroup l k c) ↔ x ∈ groupKeys l ∨ x = k := by
  intro l
  induction l with
  | nil => intro x; simp [addGroup, groupKeys]
  | cons p t ih =>
    intro x
    obtain ⟨k2, v⟩ := p
    by_cases hk : k2 = k
    · simp only [addGroup, if_pos hk, groupKeys, List.map_cons, List.mem_cons]
      subst hk
      simp [groupKeys]
      tauto
    · simp only [addGroup, if_neg hk, groupKeys, List.map_cons, List.mem_cons]
      rw [show (List.map Prod.fst (addGroup t k c) : List String)
            = groupKeys (addGroup t k c) from rfl, ih x]
      simp [groupKeys]
      tauto

lemma addGroup_keys_nodup (k : String) (c : ℚ) :
    ∀ (l : List (String × List ℚ)), (groupKeys l).Nodup →
    (groupKeys (addGroup l k c)).Nodup := by
  intro l
  induction l with
  | nil => intro _; simp [addGroup, groupKeys]
  | cons p t ih =>
    intro hn
    obtain ⟨k2, v⟩ := p
    simp only [groupKeys, List.map_cons, List.nodup_cons] at hn
    by_cases hk : k2 = k
    · simp only [addGroup, if_pos hk, groupKeys, List.map_cons, List.nodup_cons]
      exact ⟨hn.1, hn.2⟩
    · simp only [addGroup, if_neg hk, groupKeys, List.map_cons, List.nodup_cons]
      constructor
      · intro hmem
        rw [show (List.map Prod.fst (addGroup t k c) : List String)
              = groupKeys (addGroup t k c) from rfl, addGroup_keys_mem] at hmem
        rcases hmem with hmem | hmem
        · exact hn.1 hmem
        · exact hk hmem
      · exact ih hn.2

lemma buildGroups_aux_mem (data : List DataRecord) :
    ∀ (acc : List (String × List ℚ)) (x : String),
    x ∈ groupKeys (data.foldl
        (fun acc r => addGroup acc (r.group.getD "Unknown") r.cost) acc) ↔
      x ∈ groupKeys acc ∨ x ∈ data.map (fun r => r.group.getD "Unknown") := by
  induction data with
  | nil => intro acc x; simp
  | cons r t ih =>
    intro acc x
    simp only [List.foldl_cons, List.map_cons, List.mem_cons]
    rw [ih, addGroup_keys_mem]
    tauto

lemma buildGroups_aux_nodup (data : List DataRecord) :
    ∀ (acc : List (String × List ℚ)), (groupKeys acc).Nodup →
    (groupKeys (data.foldl
        (fun acc r => addGroup acc (r.group.getD "Unknown") r.cost) acc)).Nodup := by
  induction data with
  | nil => intro acc h; exact h
  | cons r t ih =>
    intro acc h
    simp only [List.foldl_cons]
    exact ih _ (addGroup_keys_nodup _ _ _ h)

/-- The number of chart series built for a grouped request equals the number
of distinct values of the records' group label after the dict lookup
defaults a missing label to "Unknown". -/
lemma buildGroups_length (data : List DataRecord) :
    (buildGroups data).length =
      (data.map (fun r => r.group.getD "Unknown")).dedup.length := by
  have h1 : (groupKeys (buildGroups data)).Nodup :=
    buildGroups_aux_nodup data [] (by simp [groupKeys])
  have h2 : ((data.map (fun r => r.group.getD "Unknown")).dedup).Nodup :=
    List.nodup_dedup _
  have hmem : ∀ x, x ∈ groupKeys (buildGroups data) ↔
      x ∈ (data.map (fun r => r.group.getD "Unknown")).dedup := by
    intro x
    rw [List.mem_dedup, buildGroups]
    have := buildGroups_aux_mem data [] x
    simpa [groupKeys] using this
  have hlen : (groupKeys (buildGroups data)).length = (buildGroups data).length := by
    simp [groupKeys]
  rw [← hlen, ← List.toFinset_card_of_nodup h1, ← List.toFinset_card_of_nodup h2]
  congr 1
  ext x
  simp only [List.mem_toFinset]
  exact hmem x

section ConcreteEvaluationTwo

attribute [local semireducible] Rat.add Rat.mul Rat.inv

/-- C3 counterexample: with group_by present, a provider result mixing one
grouped bucket (label EC2) and one ungrouped bucket yields an emitted record
with no group label at all; the chart builder defaults it to "Unknown", so
the response has 2 series while only 1 distinct group label occurs in the
emitted data records. -/
theorem C3_counterexample_mixed_buckets :
    ((analyzeCosts .ok provOneGroupedOneUngrouped reqGrouped).1.toOption.map
      (fun r => (r.chart_data.datasets.length,
        (r.data.filterMap DataRecord.group).dedup.length)))
      = some (2, 1) ∧ (2 : Nat) ≠ 1 := by decide

/-- C3 (amended): when group_by is falsy in Python's sense (omitted or the
empty string) the response's chart_data has exactly one series; when
group_by is a nonempty string the number of series equals the number of
distinct group labels of the emitted records, where a record lacking a group
label counts as the label "Unknown". -/
theorem C3_amended_series_count (ctor : CtorOutcome) (prov : CEOutcome)
    (req : CostRequest) (resp : CostResponse)
    (h : (analyzeCosts ctor prov req).1 = .ok resp) :
    resp.chart_data.datasets.length =
      if pyTruthy req.group_by then
        (resp.data.map (fun r => r.group.getD "Unknown")).dedup.length
      else 1 := by
  obtain ⟨bs, t, c, d, ls, _, hp, hr⟩ := analyzeCosts_ok h
  subst hr
  cases hg : pyTruthy req.group_by with
  | false => simp [buildChart, hg]
  | true =>
    simp only [buildChart, hg, if_true, List.length_map, List.enum_length]
    exact buildGroups_length d

/-- Witness for the amended C3 at a concrete grouped input: one bucket with
two groups, EC2 and S3, giving two series and two distinct labels. -/
theorem C3_amended_witness :
    respTwoGroups.chart_data.datasets.length =
      if pyTruthy reqGrouped.group_by then
        (respTwoGroups.data.map (fun r => r.group.getD "Unknown")).dedup.length
      else 1 :=
  C3_amended_series_count .ok provTwoGroups reqGrouped respTwoGroups (by decide)

end ConcreteEvaluationTwo

/-! ## Monotonicity of the 2-decimal rounding -/

/-- Description of `roundHalfEven` through the floor and fractional part. -/
lemma roundHalfEven_eq (x : ℚ) :
    roundHalfEven x =
      if x - ⌊x⌋ < 1/2 then ⌊x⌋
      else if 1/2 < x - ⌊x⌋ then ⌊x⌋ + 1
      else if ⌊x⌋ % 2 = 0 then ⌊x⌋ else ⌊x⌋ + 1 := by
  have hf : x.num / (x.den : ℤ) = ⌊x⌋ := Rat.floor_def.symm
  have hdQ : (0 : ℚ) < (x.den : ℚ) := by exact_mod_cast x.den_pos
  have hnum : ((x.num : ℚ)) = x * (x.den : ℚ) :=
    (div_eq_iff hdQ.ne').mp (Rat.num_div_den x)
  have hxf : x - (⌊x⌋ : ℚ) = ((x.num - ⌊x⌋ * x.den : ℤ) : ℚ) / (x.den : ℚ) := by
    push_cast
    rw [eq_div_iff hdQ.ne']
    rw [sub_mul]
    rw [← hnum]
  have e1 : 2 * (x.num - ⌊x⌋ * (x.den : ℤ)) < (x.den : ℤ) ↔ x - (⌊x⌋ : ℚ) < 1/2 := by
    rw [hxf, div_lt_div_iff₀ hdQ two_pos, one_mul]
    constructor
    · intro h
      have h2 : (x.num - ⌊x⌋ * (x.den : ℤ)) * 2 < (x.den : ℤ) := by linarith
      exact_mod_cast h2
    · intro h
      have h2 : (x.num - ⌊x⌋ * (x.den : ℤ)) * 2 < (x.den : ℤ) := by exact_mod_cast h
      linarith
  have e2 : (x.den : ℤ) < 2 * (x.num - ⌊x⌋ * (x.den : ℤ)) ↔ 1/2 < x - (⌊x⌋ : ℚ) := by
    rw [hxf, div_lt_div_iff₀ two_pos hdQ, one_mul]
    constructor
    · intro h
      have h2 : (x.den : ℤ) < (x.num - ⌊x⌋ * (x.den : ℤ)) * 2 := by linarith
      exact_mod_cast h2
    · intro h
      have h2 : (x.den : ℤ) < (x.num - ⌊x⌋ * (x.den : ℤ)) * 2 := by exact_mod_cast h
      linarith
  unfold roundHalfEven
  simp only [hf, e1, e2]

lemma roundHalfEven_mono {a b : ℚ} (h : a ≤ b) :
    roundHalfEven a ≤ roundHalfEven b := by
  rw [roundHalfEven_eq a, roundHalfEven_eq b]
  have hfab : ⌊a⌋ ≤ ⌊b⌋ := Int.floor_mono h
  by_cases hlt : ⌊a⌋ < ⌊b⌋
  · split_ifs <;> omega
  · have heq : ⌊a⌋ = ⌊b⌋ := le_antisymm hfab (not_lt.mp hlt)
    have hfr : a - (⌊a⌋ : ℚ) ≤ b - (⌊b⌋ : ℚ) := by
      rw [← heq]
      have : ((⌊a⌋ : ℤ) : ℚ) = ((⌊a⌋ : ℤ) : ℚ) := rfl
      linarith
    split_ifs <;> first | omega | (exfalso; linarith)

/-- Python `round(_, 2)` (modelled as round-half-to-even) is monotone. -/
lemma round2_mono {a b : ℚ} (h : a ≤ b) : round2 a ≤ round2 b := by
  unfold round2
  rw [div_le_div_iff_of_pos_right (by norm_num : (0:ℚ) < 100)]
  exact_mod_cast roundHalfEven_mono (by linarith : a * 100 ≤ b * 100)

/-! ## Stability and sortedness of the top-services sort -/

/-- Inserting an entry with `orderedInsert` places it before every existing
entry of the same cost, so the subsequence of entries with any fixed cost
gains the new entry at the front (when it has that cost) and is otherwise
unchanged. -/
lemma orderedInsert_filter_costEq (q : ℚ) (x : String × ℚ) :
    ∀ l : List (String × ℚ),
    (l.orderedInsert costGE x).filter (fun p => p.2 = q) =
      if x.2 = q then x :: l.filter (fun p => p.2 = q)
      else l.filter (fun p => p.2 = q) := by
  intro l
  induction l with
  | nil =>
    by_cases hx : x.2 = q <;> simp [List.orderedInsert, hx]
  | cons y t ih =>
    by_cases hr : costGE x y
    · rw [List.orderedInsert, if_pos hr]
      by_cases hx : x.2 = q <;> simp [List.filter_cons, hx]
    · rw [List.orderedInsert, if_neg hr]
      have hy2 : x.2 < y.2 := lt_of_not_le hr
      by_cases hy : y.2 = q
      · have hx : ¬ x.2 = q := by
          intro hxq
          rw [hxq, ← hy] at hy2
          exact lt_irrefl _ hy2
        simp [List.filter_cons, hy, hx, ih]
      · by_cases hx : x.2 = q <;> simp [List.filter_cons, hy, hx, ih]

/-- Stability of the sort at app.py line 195: for every cost value, the
subsequence of service entries having that exact total cost is preserved in
provider (first-seen) order. -/
lemma servicesSorted_filter_costEq (q : ℚ) (l : List (String × ℚ)) :
    (servicesSorted l).filter (fun p => p.2 = q) = l.filter (fun p => p.2 = q) := by
  unfold servicesSorted
  induction l with
  | nil => rfl
  | cons x t ih =>
    rw [List.insertionSort, orderedInsert_filter_costEq]
    by_cases hx : x.2 = q <;> simp [List.filter_cons, hx, ih]

/-- Inversion for a successful `/costs/services` run. -/
lemma getTopServices_ok {ctor : CtorOutcome} {prov : CEOutcome}
    {days limit : ℤ} {resp : ServicesResponse}
    (h : (getTopServices ctor prov days limit).1 = .ok resp) :
    ∃ bs svc, prov = .ok bs ∧ accServices [] bs = .ok svc ∧
      resp = { top_services :=
                 (pySlice (servicesSorted svc) limit).map (fun p => ⟨p.1, round2 p.2⟩),
               total_services := svc.length, period_days := days } := by
  have h1 : (tryTopServices ctor prov days limit).1 = .ok resp := by
    simp only [getTopServices] at h
    exact wrapExc_ok.mp h
  cases ctor with
  | noCredentials => simp [tryTopServices] at h1
  | ok =>
    cases prov with
    | clientErr m => simp [tryTopServices] at h1
    | otherErr m => simp [tryTopServices] at h1
    | ok bs =>
      cases ha : accServices [] bs with
      | error e => simp [tryTopServices, ha] at h1
      | ok svc =>
        simp only [tryTopServices, ha, Except.ok.injEq] at h1
        exact ⟨bs, svc, rfl, ha, h1.symm⟩

section ConcreteEvaluationThree

attribute [local semireducible] Rat.add Rat.mul Rat.inv

/-- C4 counterexample: with the (unvalidated) query parameter `limit = -1`,
Python slicing `[:limit]` drops the last element instead of truncating to a
prefix, so with one distinct service the returned list has length 0 while
the claimed bound is `min(limit, 1) = -1`, and `0 ≤ -1` is false. -/
theorem C4_counterexample_negative_limit :
    ((getTopServices .ok provOneService 30 (-1)).1.toOption.map
      (fun r => (r.top_services.length, r.total_services))) = some (0, 1) ∧
    ¬ ((0 : ℤ) ≤ min (-1) (1 : ℤ)) := by decide

/-- C4 (amended): for every successful /costs/services response whose limit
is nonnegative, `top_services` is sorted non-increasing by (rounded) cost,
its length is at most min(limit, number of distinct services seen), it is
the limit-prefix of the stable descending sort of the accumulated service
totals, and for every cost value the entries with that exact total appear in
provider (first-seen) order. -/
theorem C4_amended_top_services (ctor : CtorOutcome) (prov : CEOutcome)
    (days limit : ℤ) (resp : ServicesResponse) (bs : List Bucket)
    (svc : List (String × ℚ)) (q : ℚ)
    (hlim : 0 ≤ limit)
    (hprov : prov = .ok bs)
    (hacc : accServices [] bs = .ok svc)
    (h : (getTopServices ctor prov days limit).1 = .ok resp) :
    resp.top_services.Pairwise (fun a b => b.cost ≤ a.cost) ∧
    (resp.top_services.length : ℤ) ≤ min limit (resp.total_services : ℤ) ∧
    resp.top_services =
      (pySlice (servicesSorted svc) limit).map (fun p => ⟨p.1, round2 p.2⟩) ∧
    (servicesSorted svc).filter (fun p => p.2 = q) = svc.filter (fun p => p.2 = q) := by
  obtain ⟨bs2, svc2, hp2, ha2, hr⟩ := getTopServices_ok h
  rw [hprov] at hp2
  have hbs : bs = bs2 := CEOutcome.ok.inj hp2
  subst hbs
  rw [hacc] at ha2
  have hsvc : svc = svc2 := Except.ok.inj ha2
  subst hsvc
  subst hr
  have hslice : pySlice (servicesSorted svc) limit
      = (servicesSorted svc).take limit.toNat := by
    simp [pySlice, hlim]
  refine ⟨?_, ?_, rfl, servicesSorted_filter_costEq q svc⟩
  · have hsorted : (servicesSorted svc).Pairwise costGE :=
      List.sorted_insertionSort costGE svc
    have htake : ((servicesSorted svc).take limit.toNat).Pairwise costGE :=
      hsorted.sublist (List.take_sublist _ _)
    rw [hslice, List.pairwise_map]
    exact htake.imp (fun hab => round2_mono hab)
  · have hlen : ((pySlice (servicesSorted svc) limit).map
        (fun p => (⟨p.1, round2 p.2⟩ : ServiceEntry))).length
        = min limit.toNat svc.length := by
      rw [hslice]
      simp [List.length_take, List.length_insertionSort, servicesSorted]
    rw [hlen]
    apply le_min
    · have h1 : min limit.toNat svc.length ≤ limit.toNat := Nat.min_le_left _ _
      calc ((min limit.toNat svc.length : ℕ) : ℤ) ≤ (limit.toNat : ℤ) := by
            exact_mod_cast h1
        _ = limit := Int.toNat_of_nonneg hlim
    · exact_mod_cast Nat.min_le_right limit.toNat svc.length

/-- Witness for the amended C4 at a concrete input: one bucket with services
EC2 (5) and S3 (3), days 30, limit 10, checked at cost value 5. -/
theorem C4_amended_witness :
    respServices.top_services.Pairwise (fun a b => b.cost ≤ a.cost) ∧
    (respServices.top_services.length : ℤ) ≤ min 10 (respServices.total_services : ℤ) ∧
    respServices.top_services =
      (pySlice (servicesSorted [("EC2", 5), ("S3", 3)]) 10).map
        (fun p => ⟨p.1, round2 p.2⟩) ∧
    (servicesSorted [("EC2", 5), ("S3", 3)]).filter (fun p => p.2 = 5)
      = [("EC2", (5 : ℚ)), ("S3", 3)].filter (fun p => p.2 = 5) :=
  C4_amended_top_services .ok provTwoGroups 30 10 respServices
    [⟨"2024-01-01", "2024-01-02",
      [⟨["EC2"], some ⟨5, "USD"⟩⟩, ⟨["S3"], some ⟨3, "USD"⟩⟩], none⟩]
    [("EC2", 5), ("S3", 3)] 5
    (by decide) (by decide) (by decide) (by decide)

end ConcreteEvaluationThree
